import Mathlib

/-!
Verification of the boiler-communication core of the GM3_HA repository.

The Lean definitions below are shallow embeddings of the Python source under
custom_components/plum_ecomax and custom_components/GM3_HA:

* compute_crc16, BoilerFrame.to_bytes, BoilerFrame.from_bytes embed
  plum_protocol.py (the same CRC routine and frame layout are repeated in
  plum_device.py as PlumDevice._crc16 / PlumDevice._build_frame).
* parseLoop / feedChunks embed the buffer-parsing loop of
  AsyncPlumTransport.read_frame (plum_transport.py).  Python deletes the
  garbage prefix before the first start byte in one step; parseLoop skips it
  one byte at a time, which yields the same buffer states at every decision
  point of the source loop.  Chunks delivered by the socket are passed as a
  list; an empty chunk models a closed connection, an exhausted list models
  the timeout.
* Machine integers are modelled as Nat with explicit masking where the Python
  code masks; Python floats are idealised as rationals.
-/

set_option maxRecDepth 8192

def START_BYTE : Nat := 104

def STOP_BYTE : Nat := 22

/-- Little-endian 16-bit encoding, as produced by struct.pack with format
less-than H for an in-range argument. -/
def le16 (n : Nat) : List Nat := [n % 256, n / 256 % 256]

/-- Big-endian 16-bit encoding, struct.pack with format greater-than H. -/
def be16 (n : Nat) : List Nat := [n / 256 % 256, n % 256]

/-- One shift step of the CRC-16/CCITT loop body in compute_crc16
(plum_protocol.py): xor with polynomial 0x1021 when the high bit is set,
then mask to 16 bits. -/
def crcRound (crc : Nat) : Nat :=
  if crc &&& 32768 ≠ 0 then ((crc <<< 1) ^^^ 4129) &&& 65535
  else (crc <<< 1) &&& 65535

/-- Processing of one input byte: xor the byte into the high half, then run
eight shift steps. -/
def crcByteStep (crc b : Nat) : Nat := crcRound^[8] (crc ^^^ (b <<< 8))

/-- compute_crc16 from plum_protocol.py: initial value 0, polynomial 0x1021,
MSB-first. -/
def compute_crc16 (data : List Nat) : Nat := data.foldl crcByteStep 0

/-- BoilerFrame from plum_protocol.py: dest, src, func, payload. -/
structure BoilerFrame where
  dest : Nat
  src : Nat
  func : Nat
  data : List Nat
deriving DecidableEq

/-- The header-plus-payload span of BoilerFrame.to_bytes: little-endian
length (5 + payload length), dest and src, one function byte, payload.
This is the span the CRC is computed over. -/
def frameBody (fr : BoilerFrame) : List Nat :=
  le16 (2 + 2 + 1 + fr.data.length) ++ le16 fr.dest ++ le16 fr.src ++
    [fr.func] ++ fr.data

/-- BoilerFrame.to_bytes: start byte, header-plus-payload span, big-endian
CRC, stop byte.  struct.pack raises on out-of-range fields; this is modelled
by returning none. -/
def BoilerFrame.to_bytes (fr : BoilerFrame) : Option (List Nat) :=
  if 2 + 2 + 1 + fr.data.length < 65536 ∧ fr.dest < 65536 ∧
      fr.src < 65536 ∧ fr.func < 256 then
    some (START_BYTE :: frameBody fr ++ be16 (compute_crc16 (frameBody fr)) ++
      [STOP_BYTE])
  else none

/-- BoilerFrame.from_bytes: positional split of the body bytes
(dest low, dest high, src low, src high, func, payload).  Fewer than five
bytes raises in Python; modelled by none. -/
def BoilerFrame.from_bytes (data : List Nat) : Option BoilerFrame :=
  match data with
  | d0 :: d1 :: s0 :: s1 :: f :: payload =>
      some ⟨d0 + 256 * d1, s0 + 256 * s1, f, payload⟩
  | _ => none

theorem le16_reconstruct (n : Nat) (h : n < 65536) :
    n % 256 + 256 * (n / 256 % 256) = n := by omega

theorem crcRound_lt (x : Nat) : crcRound x < 65536 := by
  unfold crcRound
  split
  · exact Nat.lt_succ_of_le (Nat.and_le_right)
  · exact Nat.lt_succ_of_le (Nat.and_le_right)

theorem crcByteStep_lt (crc b : Nat) : crcByteStep crc b < 65536 := by
  unfold crcByteStep
  rw [show (8 : Nat) = 7 + 1 from rfl, Function.iterate_succ_apply']
  exact crcRound_lt _

theorem compute_crc16_lt (data : List Nat) : compute_crc16 data < 65536 := by
  unfold compute_crc16
  induction data using List.reverseRecOn with
  | nil => decide
  | append_singleton xs x _ =>
      rw [List.foldl_append]
      exact crcByteStep_lt _ _

/-- C1.  Frame round-trip: encoding a frame with BoilerFrame.to_bytes and
structurally splitting the resulting body (the bytes after the start byte
and the 2-byte length field, before the CRC) with BoilerFrame.from_bytes
reconstructs the original dest, src, func and payload, for every valid
field assignment with payload length below 2 to the 16 minus 6. -/
theorem C1_frame_roundtrip (dest src func : Nat) (payload : List Nat)
    (h1 : dest < 65536) (h2 : src < 65536) (h3 : func < 256)
    (h4 : payload.length < 65536 - 6) :
    ∃ enc, (BoilerFrame.mk dest src func payload).to_bytes = some enc ∧
      BoilerFrame.from_bytes ((enc.drop 3).take (enc.length - 6)) =
        some (BoilerFrame.mk dest src func payload) := by
  set fr := BoilerFrame.mk dest src func payload with hfr
  set enc := START_BYTE :: frameBody fr ++ be16 (compute_crc16 (frameBody fr))
    ++ [STOP_BYTE] with henc
  have hsome : fr.to_bytes = some enc := by
    unfold BoilerFrame.to_bytes
    rw [if_pos]
    exact ⟨by simp [hfr]; omega, h1, h2, h3⟩
  refine ⟨enc, hsome, ?_⟩
  have hbody : frameBody fr =
      (2 + 2 + 1 + payload.length) % 256 ::
      (2 + 2 + 1 + payload.length) / 256 % 256 ::
      (le16 dest ++ le16 src ++ [func] ++ payload) := by
    simp [frameBody, le16, hfr]
  have hX : (le16 dest ++ le16 src ++ [func] ++ payload).length =
      5 + payload.length := by
    simp [le16]; omega
  have hdrop : enc.drop 3 =
      (le16 dest ++ le16 src ++ [func] ++ payload) ++
        (be16 (compute_crc16 (frameBody fr)) ++ [STOP_BYTE]) := by
    rw [henc, hbody]
    simp
  have hlen : enc.length - 6 = 5 + payload.length := by
    rw [henc, hbody]
    simp [be16, le16]; omega
  rw [hdrop, hlen, ← hX, List.take_left]
  have hXc : le16 dest ++ le16 src ++ [func] ++ payload =
      dest % 256 :: dest / 256 % 256 :: src % 256 :: src / 256 % 256 ::
        func :: payload := by
    simp [le16]
  rw [hXc]
  simp only [BoilerFrame.from_bytes, Option.some.injEq, BoilerFrame.mk.injEq,
    hfr]
  exact ⟨by omega, by omega, trivial, trivial⟩

theorem C1_frame_roundtrip_witness :
    (1 < 65536 ∧ 100 < 65536 ∧ 67 < 256 ∧ [10, 20, 30].length < 65536 - 6) ∧
    ∃ enc, (BoilerFrame.mk 1 100 67 [10, 20, 30]).to_bytes = some enc ∧
      BoilerFrame.from_bytes ((enc.drop 3).take (enc.length - 6)) =
        some (BoilerFrame.mk 1 100 67 [10, 20, 30]) :=
  ⟨by norm_num,
   C1_frame_roundtrip 1 100 67 [10, 20, 30] (by norm_num) (by norm_num)
     (by norm_num) (by norm_num)⟩

/-!
Value model.  Python values flowing through the driver and the coordinator
are numbers (int and float are merged; Python floats are idealised as exact
rationals) or strings.
-/

inductive PyVal where
  | num (q : ℚ)
  | str (s : String)
deriving DecidableEq

/-- isinstance(v, (int, float)). -/
def pyIsNum : PyVal → Bool
  | .num _ => true
  | .str _ => false

/-- Numeric content of a value; only meaningful when pyIsNum holds. -/
def pyNum : PyVal → ℚ
  | .num q => q
  | .str _ => 0

/-- Parameter type names used by the type dispatch in PlumDevice. -/
inductive PType where
  | FLOAT | BYTE | SHORT_INT | BOOL | INT | WORD | DWORD | LONG_INT | STRING
deriving DecidableEq

/-- One entry of the parameter-definition map (device_map.json): numeric id,
declared type, decimal exponent, optional min, max and max_delta bounds. -/
structure ParamDef where
  id : Nat
  ptype : PType
  exponent : Int
  pmin : Option ℚ
  pmax : Option ℚ
  pmax_delta : Option ℚ
deriving DecidableEq

/-- Python round to the nearest integer with ties to even (banker rounding),
as used by round(x, n). -/
def roundHalfEven (q : ℚ) : ℤ :=
  if q - ⌊q⌋ < 1 / 2 then ⌊q⌋
  else if 1 / 2 < q - ⌊q⌋ then ⌊q⌋ + 1
  else if ⌊q⌋ % 2 = 0 then ⌊q⌋ else ⌊q⌋ + 1

/-- round(x, 2). -/
def pyRound2 (q : ℚ) : ℚ := (roundHalfEven (q * 100) : ℚ) / 100

/-- struct.unpack with format less-than h (signed 16-bit little endian). -/
def int16LE (b0 b1 : Nat) : Int :=
  if b0 + 256 * b1 < 32768 then (b0 + 256 * b1 : Int)
  else (b0 + 256 * b1 : Int) - 65536

/-- struct.unpack with format less-than i (signed 32-bit little endian). -/
def int32LE (b0 b1 b2 b3 : Nat) : Int :=
  if b0 + 256 * b1 + 65536 * b2 + 16777216 * b3 < 2147483648 then
    (b0 + 256 * b1 + 65536 * b2 + 16777216 * b3 : Int)
  else (b0 + 256 * b1 + 65536 * b2 + 16777216 * b3 : Int) - 4294967296

/-- struct.unpack with format less-than f (IEEE-754 binary32, little
endian), as an exact rational.  Non-finite encodings (exponent field 255)
are not modelled and return none; no code path exercised by the claims
produces them. -/
def unpack_f32 (b0 b1 b2 b3 : Nat) : Option ℚ :=
  let bits := b0 + 256 * b1 + 65536 * b2 + 16777216 * b3
  let sgn := bits / 2147483648 % 2
  let e := bits / 8388608 % 256
  let m := bits % 8388608
  if e = 255 then none
  else
    let mag : ℚ :=
      if e = 0 then (m : ℚ) * (2 : ℚ) ^ (-(149 : Int))
      else ((8388608 + m : Nat) : ℚ) * (2 : ℚ) ^ ((e : Int) - 150)
    some (if sgn = 1 then -mag else mag)

/-- The numeric branch table of PlumDevice._decode (plum_ecomax version,
identical in the GM3_HA version for non-string types): FLOAT unpacks four
bytes and rounds to 2 decimals, BYTE-like types read one unsigned byte,
INT and WORD read a signed 16-bit value, DWORD and LONG_INT a signed 32-bit
value; insufficient length leaves the value None. -/
def decode_raw_numeric (data : List Nat) (t : PType) : Option ℚ :=
  match t with
  | .FLOAT =>
      if 4 ≤ data.length then
        (unpack_f32 (data.getD 0 0) (data.getD 1 0) (data.getD 2 0)
          (data.getD 3 0)).map pyRound2
      else none
  | .BYTE | .SHORT_INT | .BOOL =>
      if 1 ≤ data.length then some ((data.getD 0 0 : ℚ)) else none
  | .INT | .WORD =>
      if 2 ≤ data.length then
        some ((int16LE (data.getD 0 0) (data.getD 1 0) : ℚ))
      else none
  | .DWORD | .LONG_INT =>
      if 4 ≤ data.length then
        some ((int32LE (data.getD 0 0) (data.getD 1 0) (data.getD 2 0)
          (data.getD 3 0) : ℚ))
      else none
  | .STRING => none

/-- PlumDevice._decode from plum_ecomax/plum_device.py: numeric branch
table, then, when the exponent is nonzero, multiplication by ten to the
exponent and rounding to 2 decimals.  The plum_ecomax version has no STRING
branch, so a STRING type decodes to None. -/
def ecomax_decode (data : List Nat) (p : ParamDef) : Option PyVal :=
  match decode_raw_numeric data p.ptype with
  | none => none
  | some v =>
      if p.exponent ≠ 0 then
        some (.num (pyRound2 (v * (10 : ℚ) ^ p.exponent)))
      else some (.num v)

/-- True when the byte is a UTF-8 continuation byte (0x80..0xBF). -/
def utf8Cont (b : Nat) : Bool := decide (128 ≤ b) && decide (b < 192)

/-- Number of bytes, beyond the lead byte, consumed by the UTF-8 decoder
with the ignore error handler: the maximal valid subpart of the sequence
started at the lead byte. -/
def utf8Extra (b : Nat) (rest : List Nat) : Nat :=
  if b < 128 then 0
  else if 194 ≤ b ∧ b ≤ 223 then
    if utf8Cont (rest.getD 0 256) then 1 else 0
  else if 224 ≤ b ∧ b ≤ 239 then
    if (if b = 224 then 160 else 128) ≤ rest.getD 0 256 ∧
        rest.getD 0 256 ≤ (if b = 237 then 159 else 191) then
      if utf8Cont (rest.getD 1 256) then 2 else 1
    else 0
  else if 240 ≤ b ∧ b ≤ 244 then
    if (if b = 240 then 144 else 128) ≤ rest.getD 0 256 ∧
        rest.getD 0 256 ≤ (if b = 244 then 143 else 191) then
      if utf8Cont (rest.getD 1 256) then
        if utf8Cont (rest.getD 2 256) then 3 else 2
      else 1
    else 0
  else 0

/-- The character produced at a lead byte, when the sequence is complete and
valid; none when the sequence is invalid or truncated (the ignore handler
then produces nothing). -/
def utf8CharAt (b : Nat) (rest : List Nat) : Option Char :=
  if b < 128 then some (Char.ofNat b)
  else if 194 ≤ b ∧ b ≤ 223 then
    if utf8Extra b rest = 1 then
      some (Char.ofNat ((b - 192) * 64 + (rest.getD 0 0 - 128)))
    else none
  else if 224 ≤ b ∧ b ≤ 239 then
    if utf8Extra b rest = 2 then
      some (Char.ofNat ((b - 224) * 4096 + (rest.getD 0 0 - 128) * 64 +
        (rest.getD 1 0 - 128)))
    else none
  else if 240 ≤ b ∧ b ≤ 244 then
    if utf8Extra b rest = 3 then
      some (Char.ofNat ((b - 240) * 262144 + (rest.getD 0 0 - 128) * 4096 +
        (rest.getD 1 0 - 128) * 64 + (rest.getD 2 0 - 128)))
    else none
  else none

/-- Permissive UTF-8 decoding with the ignore error handler, as used by the
GM3_HA string decode: each lead byte yields its character when the sequence
is complete and valid, and otherwise the maximal valid subpart is skipped
silently. -/
def utf8DecodeIgnore : List Nat → List Char
  | [] => []
  | b :: rest =>
    (match utf8CharAt b rest with
      | some c => [c]
      | none => []) ++ utf8DecodeIgnore (rest.drop (utf8Extra b rest))
termination_by l => l.length
decreasing_by
  simp only [List.length_cons, List.length_drop]
  omega

/-- bytes.decode with utf-8 and the ignore handler. -/
def utf8Ignore (l : List Nat) : String := String.mk (utf8DecodeIgnore l)

/-- PlumDevice._decode from GM3_HA/plum_device.py: identical to the
plum_ecomax version except for an additional STRING branch that decodes the
bytes up to the first null byte permissively; string values skip the
exponent scaling because the isinstance test fails on them. -/
def gm3_decode (data : List Nat) (p : ParamDef) : Option PyVal :=
  match p.ptype with
  | .STRING => some (.str (utf8Ignore (data.takeWhile (· ≠ 0))))
  | _ => ecomax_decode data p

/-- C5 counterexample: the value codec applied to raw bytes 0xC8 0x00 for a
WORD parameter with exponent 1 returns 2000, not 20.0 as the claim states. -/
theorem C5_counterexample :
    ecomax_decode [200, 0] (ParamDef.mk 7 .WORD 1 none none none) =
      some (.num 2000) ∧
    ecomax_decode [200, 0] (ParamDef.mk 7 .WORD 1 none none none) ≠
      some (.num 20) := by
  norm_num [ecomax_decode, decode_raw_numeric, int16LE, pyRound2,
    roundHalfEven]

/-- C5 amended: for a WORD parameter, raw bytes 0xC8 0x00 (the integer 200)
decode to 2000 when the exponent is 1 (the code multiplies by ten to the
exponent), and to 20.0 when the exponent is minus 1. -/
theorem C5_word_exponent_scaling :
    ecomax_decode [200, 0] (ParamDef.mk 7 .WORD 1 none none none) =
      some (.num 2000) ∧
    ecomax_decode [200, 0] (ParamDef.mk 7 .WORD (-1) none none none) =
      some (.num 20) := by
  norm_num [ecomax_decode, decode_raw_numeric, int16LE, pyRound2,
    roundHalfEven]

/-!
Dictionary model: Python dicts keyed by slug are association lists; an
insert conses the new binding and a lookup takes the most recent one.
-/

def dget {α : Type} (m : List (String × α)) (k : String) : Option α :=
  (m.find? (fun e => e.1 == k)).map (fun e => e.2)

def dinsert {α : Type} (k : String) (v : α) (m : List (String × α)) :
    List (String × α) := (k, v) :: m

/-- Python substring test (keyword in slug). -/
def strContains (kw slug : String) : Bool := decide (kw.toList <:+: slug.toList)

/-- VALIDATION_RANGES from plum_ecomax/coordinator.py, in insertion order. -/
def VALIDATION_RANGES : List (String × ℚ × ℚ) :=
  [("temp", -20, 100), ("power", 0, 100), ("fan", 0, 100),
   ("valveposition", 0, 100), ("pressure", 0, 4), ("lambda", 0, 25)]

/-- The generic fallback scan of _validate_value (branch C): the first
keyword contained in the slug decides; inside its range the raw value is
kept, outside it is rejected; after the first match no further keywords are
checked; with no match the value is kept. -/
def genericScan (slug : String) (q : ℚ) (rv : PyVal) :
    List (String × ℚ × ℚ) → Bool × Option PyVal
  | [] => (true, some rv)
  | (kw, lo, hi) :: rest =>
      if strContains kw slug then
        if lo ≤ q ∧ q ≤ hi then (true, some rv) else (false, none)
      else genericScan slug q rv rest

/-- Parameter definition used when the slug is absent from params_map:
params_map.get(slug, {}) yields no declared bounds. -/
def emptyParam : ParamDef := ⟨0, .BYTE, 0, none, none, none⟩

/-- PlumDataUpdateCoordinator._validate_value from plum_ecomax/coordinator.py.
Returns none when the Python code would raise (the abs of a difference
between a non-numeric cached value and a number); otherwise some
(is_valid, safe_value).  Order of checks follows the source: None check,
sentinel 999 check, declared JSON bounds (min, max, max_delta) when min or
max is declared and the value is numeric, else the generic keyword scan for
numeric values; non-numeric values fall through to (True, raw). -/
def validate_value (pmap : List (String × ParamDef)) (slug : String)
    (raw_val : Option PyVal) (cached_val : Option PyVal) :
    Option (Bool × Option PyVal) :=
  match raw_val with
  | none => some (false, none)
  | some rv =>
    if pyIsNum rv && decide (pyNum rv = 999) then some (false, none)
    else
      let p := (dget pmap slug).getD emptyParam
      if (p.pmin.isSome || p.pmax.isSome) && pyIsNum rv then
        let q := pyNum rv
        let minBad := match p.pmin with
          | some m => decide (q < m)
          | none => false
        let maxBad := match p.pmax with
          | some M => decide (M < q)
          | none => false
        match p.pmax_delta, cached_val with
        | some d, some c =>
            if pyIsNum c then
              if minBad || maxBad || decide (d < |pyNum c - q|) then
                some (false, none)
              else some (true, some rv)
            else none
        | _, _ =>
            if minBad || maxBad then some (false, none)
            else some (true, some rv)
      else if pyIsNum rv then some (genericScan slug (pyNum rv) rv
        VALIDATION_RANGES)
      else some (true, some rv)

/-- C10.  The validation policy checks the sentinel 999 and any bounds only
on numeric values: a fetched value that is not None and not numeric (a
string) is accepted unchanged by _validate_value, whatever the slug, the
cached value and the parameter definitions. -/
theorem C10_nonnumeric_bypasses_validation (pmap : List (String × ParamDef))
    (slug s : String) (cached : Option PyVal) :
    validate_value pmap slug (some (.str s)) cached =
      some (true, some (.str s)) := by
  simp [validate_value, pyIsNum]

/-- C6.  When the parameter declares a min or max bound and the value is
numeric, the result of _validate_value does not depend on the slug (the
generic keyword table is never consulted); concretely, with declared
min 10 and max 50 the value 60 is rejected for the slug boiler_temp even
though the generic temp range would accept 60 (as the same slug with no
declared bounds shows). -/
theorem C6_declared_bounds_override_generic
    (pmap : List (String × ParamDef)) (slug slug' : String) (q : ℚ)
    (cached : Option PyVal)
    (hb : (((dget pmap slug).getD emptyParam).pmin.isSome ∨
      ((dget pmap slug).getD emptyParam).pmax.isSome))
    (hb' : (dget pmap slug).getD emptyParam =
      (dget pmap slug').getD emptyParam) :
    validate_value pmap slug (some (.num q)) cached =
      validate_value pmap slug' (some (.num q)) cached
    ∧ validate_value
        [("boiler_temp", ParamDef.mk 7 .WORD 0 (some 10) (some 50) none)]
        "boiler_temp" (some (.num 60)) cached = some (false, none)
    ∧ validate_value [] "boiler_temp" (some (.num 60)) none =
        some (true, some (.num 60)) := by
  refine ⟨?_, ?_, ?_⟩
  · have hsome : (((dget pmap slug).getD emptyParam).pmin.isSome ||
        ((dget pmap slug).getD emptyParam).pmax.isSome) = true := by
      rcases hb with h | h <;> simp [h]
    simp only [validate_value, pyIsNum, ← hb', hsome, Bool.and_true,
      Bool.true_and, if_true]
  · norm_num [validate_value, dget, emptyParam, pyIsNum, pyNum]
  · norm_num [validate_value, dget, emptyParam, pyIsNum, pyNum,
      genericScan, VALIDATION_RANGES, strContains]
    decide

theorem C6_declared_bounds_override_generic_witness :
    ((((dget [("x", ParamDef.mk 1 .WORD 0 (some 10) (some 50) none)]
        "x").getD emptyParam).pmin.isSome ∨
      (((dget [("x", ParamDef.mk 1 .WORD 0 (some 10) (some 50) none)]
        "x").getD emptyParam)).pmax.isSome) ∧
     (dget [("x", ParamDef.mk 1 .WORD 0 (some 10) (some 50) none)]
        "x").getD emptyParam =
       (dget [("x", ParamDef.mk 1 .WORD 0 (some 10) (some 50) none)]
        "x").getD emptyParam) ∧
    (validate_value [("x", ParamDef.mk 1 .WORD 0 (some 10) (some 50) none)]
        "x" (some (.num 0)) none =
      validate_value [("x", ParamDef.mk 1 .WORD 0 (some 10) (some 50) none)]
        "x" (some (.num 0)) none
    ∧ validate_value
        [("boiler_temp", ParamDef.mk 7 .WORD 0 (some 10) (some 50) none)]
        "boiler_temp" (some (.num 60)) none = some (false, none)
    ∧ validate_value [] "boiler_temp" (some (.num 60)) none =
        some (true, some (.num 60))) :=
  ⟨⟨Or.inl (by decide), rfl⟩,
   C6_declared_bounds_override_generic _ "x" "x" 0 none (Or.inl (by decide))
     rfl⟩

/-!
Driver read path.  The blocking socket transaction is nondeterministic
network I/O; its result (the payload slice, or None) is passed to the
models as an oracle argument.  Both _sync_get_value versions first step the
session counter modulo 65000.
-/

/-- PlumDevice._sync_get_value from plum_ecomax/plum_device.py: steps the
session id, builds the read request and, when the transaction returns a
payload longer than 7 bytes, decodes resp[7:] with no verification of the
embedded session id.  Returns the new session id alongside the result. -/
def ecomax_sync_get_value (session pid : Nat) (resp : Option (List Nat))
    (p : ParamDef) : Nat × Option PyVal :=
  ((session + 1) % 65000,
   match resp with
   | some r => if 7 < r.length then ecomax_decode (r.drop 7) p else none
   | none => none)

/-- PlumDevice._sync_get_value from GM3_HA/plum_device.py: steps the session
id and accepts a response only when it is longer than 2 bytes and its
leading little-endian 16-bit field equals the request session id or the
wildcard 0; on acceptance resp[7:] is decoded. -/
def gm3_sync_get_value (session pid : Nat) (resp : Option (List Nat))
    (p : ParamDef) : Nat × Option PyVal :=
  ((session + 1) % 65000,
   match resp with
   | some r =>
       if 2 < r.length then
         if r.getD 0 0 + 256 * r.getD 1 0 = (session + 1) % 65000 ∨
             r.getD 0 0 + 256 * r.getD 1 0 = 0 then
           gm3_decode (r.drop 7) p
         else none
       else none
   | none => none)

/-- The retry loop of PlumDevice.get_value from plum_ecomax/plum_device.py,
with the per-attempt results of _sync_get_value passed as a list (one entry
per loop iteration): the first non-None attempt is cached and returned; when
all attempts fail the last cached value for the slug is returned.  Returns
the result together with the updated _data_cache. -/
def ecomax_get_value_loop (slug : String) (cache : List (String × PyVal)) :
    List (Option PyVal) → Option PyVal × List (String × PyVal)
  | [] => (dget cache slug, cache)
  | some v :: _ => (some v, dinsert slug v cache)
  | none :: rest => ecomax_get_value_loop slug cache rest

/-- PlumDevice.get_value from plum_ecomax/plum_device.py: None for an
unknown slug, otherwise the retry loop over the attempt results. -/
def ecomax_get_value (param : Option ParamDef) (slug : String)
    (cache : List (String × PyVal)) (attempts : List (Option PyVal)) :
    Option PyVal × List (String × PyVal) :=
  match param with
  | none => (none, cache)
  | some _ => ecomax_get_value_loop slug cache attempts

/-- The retry loop of PlumDevice.get_value from GM3_HA/plum_device.py: the
first non-None attempt is returned; when all attempts fail the result is
None (no cache exists in this version). -/
def gm3_get_value_loop : List (Option PyVal) → Option PyVal
  | [] => none
  | some v :: _ => some v
  | none :: rest => gm3_get_value_loop rest

/-- PlumDevice.get_value from GM3_HA/plum_device.py. -/
def gm3_get_value (param : Option ParamDef) (attempts : List (Option PyVal)) :
    Option PyVal :=
  match param with
  | none => none
  | some _ => gm3_get_value_loop attempts

/-- C3 counterexample: the plum_ecomax driver accepts and decodes a response
whose leading 16-bit session field (0xFFFF) differs from the request session
(11) and from the wildcard 0, contradicting the claim that every read
transaction verifies the session id. -/
theorem C3_counterexample :
    (ecomax_sync_get_value 10 7
        (some [255, 255, 0, 0, 0, 0, 0, 200, 0])
        (ParamDef.mk 7 .WORD 0 none none none)).2 = some (.num 200)
    ∧ [255, 255, 0, 0, 0, 0, 0, 200, 0].getD 0 0 +
        256 * [255, 255, 0, 0, 0, 0, 0, 200, 0].getD 1 0 ≠ (10 + 1) % 65000
    ∧ [255, 255, 0, 0, 0, 0, 0, 200, 0].getD 0 0 +
        256 * [255, 255, 0, 0, 0, 0, 0, 200, 0].getD 1 0 ≠ 0 := by
  refine ⟨?_, by decide, by decide⟩
  norm_num [ecomax_sync_get_value, ecomax_decode, decode_raw_numeric, int16LE]

/-- C3 amended: the GM3_HA driver accepts a response only when it is longer
than 2 bytes and its leading 16-bit session field equals the stepped request
session id or the wildcard 0; the plum_ecomax driver performs no session
check, its result being independent of the session counter. -/
theorem C3_session_check (session session' pid : Nat) (r : List Nat)
    (p : ParamDef) (v : PyVal)
    (h : (gm3_sync_get_value session pid (some r) p).2 = some v) :
    (2 < r.length ∧
      (r.getD 0 0 + 256 * r.getD 1 0 = (session + 1) % 65000 ∨
        r.getD 0 0 + 256 * r.getD 1 0 = 0))
    ∧ (ecomax_sync_get_value session pid (some r) p).2 =
        (ecomax_sync_get_value session' pid (some r) p).2 := by
  refine ⟨?_, rfl⟩
  simp only [gm3_sync_get_value] at h
  by_cases hlen : 2 < r.length
  · rw [if_pos hlen] at h
    by_cases hsess : r.getD 0 0 + 256 * r.getD 1 0 = (session + 1) % 65000 ∨
        r.getD 0 0 + 256 * r.getD 1 0 = 0
    · exact ⟨hlen, hsess⟩
    · rw [if_neg hsess] at h
      exact absurd h (by simp)
  · rw [if_neg hlen] at h
    exact absurd h (by simp)

theorem C3_session_check_witness :
    ((gm3_sync_get_value 10 7 (some [11, 0, 0, 0, 0, 0, 0, 200, 0])
        (ParamDef.mk 7 .WORD 0 none none none)).2 = some (.num 200)) ∧
    ((2 < [11, 0, 0, 0, 0, 0, 0, 200, 0].length ∧
      ([11, 0, 0, 0, 0, 0, 0, 200, 0].getD 0 0 +
          256 * [11, 0, 0, 0, 0, 0, 0, 200, 0].getD 1 0 = (10 + 1) % 65000 ∨
        [11, 0, 0, 0, 0, 0, 0, 200, 0].getD 0 0 +
          256 * [11, 0, 0, 0, 0, 0, 0, 200, 0].getD 1 0 = 0))
    ∧ (ecomax_sync_get_value 10 7 (some [11, 0, 0, 0, 0, 0, 0, 200, 0])
        (ParamDef.mk 7 .WORD 0 none none none)).2 =
      (ecomax_sync_get_value 99 7 (some [11, 0, 0, 0, 0, 0, 0, 200, 0])
        (ParamDef.mk 7 .WORD 0 none none none)).2) := by
  have hacc : (gm3_sync_get_value 10 7 (some [11, 0, 0, 0, 0, 0, 0, 200, 0])
      (ParamDef.mk 7 .WORD 0 none none none)).2 = some (.num 200) := by
    norm_num [gm3_sync_get_value, gm3_decode, ecomax_decode,
      decode_raw_numeric, int16LE]
  exact ⟨hacc, C3_session_check 10 99 7 _ _ _ hacc⟩

/-- C4 counterexample: with a previously cached value 5 for the slug and all
retry attempts failing, the plum_ecomax getValue returns the cached 5, not
None, contradicting the claim that exhausted retries always yield None. -/
theorem C4_counterexample :
    (ecomax_get_value (some (ParamDef.mk 1 .BYTE 0 none none none)) "x"
        [("x", .num 5)] [none, none, none]).1 = some (.num 5)
    ∧ (ecomax_get_value (some (ParamDef.mk 1 .BYTE 0 none none none)) "x"
        [("x", .num 5)] [none, none, none]).1 ≠ none := by
  constructor <;>
    simp [ecomax_get_value, ecomax_get_value_loop, dget, List.find?]

/-- C4 amended: when every retry attempt fails, the GM3_HA getValue returns
None, while the plum_ecomax getValue returns the last cached value for the
slug (which is None only when nothing was ever cached). -/
theorem C4_exhausted_retries (param : ParamDef) (slug : String)
    (cache : List (String × PyVal)) (attempts : List (Option PyVal))
    (h : ∀ a ∈ attempts, a = none) :
    gm3_get_value (some param) attempts = none
    ∧ (ecomax_get_value (some param) slug cache attempts).1 =
        dget cache slug := by
  constructor
  · show gm3_get_value_loop attempts = none
    induction attempts with
    | nil => rfl
    | cons a rest ih =>
        have ha : a = none := h a (List.mem_cons_self a rest)
        subst ha
        exact ih (fun x hx => h x (List.mem_cons_of_mem none hx))
  · show (ecomax_get_value_loop slug cache attempts).1 = dget cache slug
    induction attempts with
    | nil => rfl
    | cons a rest ih =>
        have ha : a = none := h a (List.mem_cons_self a rest)
        subst ha
        exact ih (fun x hx => h x (List.mem_cons_of_mem none hx))

theorem C4_exhausted_retries_witness :
    (∀ a ∈ [(none : Option PyVal), none, none], a = none) ∧
    (gm3_get_value (some (ParamDef.mk 1 .BYTE 0 none none none))
        [none, none, none] = none
    ∧ (ecomax_get_value (some (ParamDef.mk 1 .BYTE 0 none none none)) "x"
        [("x", .num 5)] [none, none, none]).1 =
      dget [("x", .num 5)] "x") :=
  ⟨by decide,
   C4_exhausted_retries (ParamDef.mk 1 .BYTE 0 none none none) "x"
     [("x", .num 5)] [none, none, none] (by decide)⟩

/-!
Coordinator write path and refresh step (plum_ecomax/coordinator.py, with
the GM3_HA variant of the refresh step alongside).  Wall-clock instants are
rationals passed explicitly; the outcome of the network fetch is an oracle
argument.
-/

/-- Observable actions of the background repeated-write task. -/
inductive WriteEvent where
  | send (slug : String) (value : PyVal)
  | sleep (seconds : ℚ)
deriving DecidableEq

/-- Countdown helper for _perform_repeated_write: with fuel k+1, one send
followed (except after the last send) by a 2-second sleep. -/
def repeatedWriteGo (slug : String) (value : PyVal) : Nat → List WriteEvent
  | 0 => []
  | Nat.succ k =>
      .send slug value ::
        (if k = 0 then [] else .sleep 2 :: repeatedWriteGo slug value k)

/-- PlumDataUpdateCoordinator._perform_repeated_write from
plum_ecomax/coordinator.py: five sends with a 2-second gap between
consecutive sends and no sleep after the last one.  The per-send results of
device.set_value are received but never inspected, hence the unused results
argument. -/
def perform_repeated_write (slug : String) (value : PyVal)
    (results : List Bool) : List WriteEvent :=
  repeatedWriteGo slug value 5

/-- Result of the coordinator write entry point: the returned boolean, the
cache and timestamp maps after the optimistic update, whether observers
were notified, and the event trace of the detached background task. -/
structure SetValueOutcome where
  ret : Bool
  cache : List (String × PyVal)
  tstamps : List (String × ℚ)
  notified : Bool
  background : List WriteEvent
deriving DecidableEq

/-- PlumDataUpdateCoordinator.async_set_value from plum_ecomax/coordinator.py:
updates cache and timestamp under the lock, notifies observers, launches the
detached repeated-write task, and returns True unconditionally. -/
def async_set_value (cache : List (String × PyVal))
    (tstamps : List (String × ℚ)) (now : ℚ) (slug : String) (value : PyVal)
    (results : List Bool) : SetValueOutcome :=
  { ret := true
    cache := dinsert slug value cache
    tstamps := dinsert slug now tstamps
    notified := true
    background := perform_repeated_write slug value results }

/-- C7.  The coordinator write entry point always returns True, updates the
cached value and its timestamp for the slug before any physical
confirmation exists, and its detached background task is exactly five sends
separated by 2-second gaps, independent of the per-send outcomes. -/
theorem C7_optimistic_write (cache : List (String × PyVal))
    (tstamps : List (String × ℚ)) (now : ℚ) (slug : String) (value : PyVal)
    (results results' : List Bool) :
    (async_set_value cache tstamps now slug value results).ret = true
    ∧ dget (async_set_value cache tstamps now slug value results).cache slug
        = some value
    ∧ dget (async_set_value cache tstamps now slug value results).tstamps
        slug = some now
    ∧ (async_set_value cache tstamps now slug value results).background =
        [.send slug value, .sleep 2, .send slug value, .sleep 2,
         .send slug value, .sleep 2, .send slug value, .sleep 2,
         .send slug value]
    ∧ (async_set_value cache tstamps now slug value results).background =
        (async_set_value cache tstamps now slug value results').background := by
  refine ⟨rfl, ?_, ?_, rfl, rfl⟩ <;>
    simp [async_set_value, dinsert, dget, List.find?]

/-- Outcome of the fetch-and-validate part of one refresh step: either the
value returned by device.get_value, or an exception during fetch or
validation. -/
inductive FetchOutcome where
  | ok (v : Option PyVal)
  | exc
deriving DecidableEq

/-- One slug iteration of _async_update_data from plum_ecomax/coordinator.py.
Inputs: the cache and timestamp maps, the loop instant now, the TTL, the
slug, the parameter map (used by validation), the fetch outcome and the
instant of the cache write after a successful fetch.  Output: the data
entry produced for the slug (none when the slug is omitted this cycle), the
updated cache and timestamp maps, and whether device.get_value was invoked. -/
def update_slug (pmap : List (String × ParamDef))
    (cache : List (String × PyVal)) (tstamps : List (String × ℚ))
    (now ttl : ℚ) (slug : String) (fetch : FetchOutcome) (fetchTime : ℚ) :
    Option PyVal × List (String × PyVal) × List (String × ℚ) × Bool :=
  let last := (dget tstamps slug).getD 0
  let cached := dget cache slug
  if now - last < ttl ∧ cached.isSome then (cached, cache, tstamps, false)
  else
    match fetch with
    | .exc => (dget cache slug, cache, tstamps, true)
    | .ok raw =>
        match validate_value pmap slug raw cached with
        | none => (dget cache slug, cache, tstamps, true)
        | some (true, fv) =>
            (fv,
             (match fv with
              | some v => dinsert slug v cache
              | none => cache),
             dinsert slug fetchTime tstamps, true)
        | some (false, _) => (cached, cache, tstamps, true)

/-- One slug iteration of _async_update_data from GM3_HA/coordinator.py:
identical cache-hit branch; on a fetch the value is cached when non-None,
otherwise the stale cached value is used; no validation exists here. -/
def gm3_update_slug (cache : List (String × PyVal))
    (tstamps : List (String × ℚ)) (now ttl : ℚ) (slug : String)
    (fetch : FetchOutcome) (fetchTime : ℚ) :
    Option PyVal × List (String × PyVal) × List (String × ℚ) × Bool :=
  let last := (dget tstamps slug).getD 0
  let cached := dget cache slug
  if now - last < ttl ∧ cached.isSome then (cached, cache, tstamps, false)
  else
    match fetch with
    | .exc => (dget cache slug, cache, tstamps, true)
    | .ok raw =>
        match raw with
        | some v => (some v, dinsert slug v cache, dinsert slug fetchTime
            tstamps, true)
        | none => (cached, cache, tstamps, true)

/-- C8.  During a refresh cycle, a slug whose cache entry exists and is
fresh (age strictly below the TTL) is served from the cache: the cached
value is returned, cache and timestamps are unchanged, and the driver
getValue is not invoked; this holds in both coordinator variants. -/
theorem C8_fresh_cache_no_fetch (pmap : List (String × ParamDef))
    (cache : List (String × PyVal)) (tstamps : List (String × ℚ))
    (now ttl : ℚ) (slug : String) (fetch : FetchOutcome) (fetchTime : ℚ)
    (v : PyVal) (t : ℚ)
    (hc : dget cache slug = some v) (ht : dget tstamps slug = some t)
    (hfresh : now - t < ttl) :
    update_slug pmap cache tstamps now ttl slug fetch fetchTime =
      (some v, cache, tstamps, false)
    ∧ gm3_update_slug cache tstamps now ttl slug fetch fetchTime =
      (some v, cache, tstamps, false) := by
  have hcond : now - (dget tstamps slug).getD 0 < ttl ∧
      (dget cache slug).isSome := by
    rw [hc, ht]
    exact ⟨by simpa using hfresh, rfl⟩
  constructor
  · unfold update_slug
    rw [if_pos hcond, hc]
  · unfold gm3_update_slug
    rw [if_pos hcond, hc]

theorem C8_fresh_cache_no_fetch_witness :
    (dget [("a", PyVal.num 1)] "a" = some (.num 1) ∧
     dget [("a", (0 : ℚ))] "a" = some 0 ∧
     (1 : ℚ) - 0 < 25) ∧
    (update_slug [] [("a", PyVal.num 1)] [("a", (0 : ℚ))] 1 25 "a"
        .exc 2 = (some (.num 1), [("a", PyVal.num 1)], [("a", (0 : ℚ))], false)
    ∧ gm3_update_slug [("a", PyVal.num 1)] [("a", (0 : ℚ))] 1 25 "a"
        .exc 2 =
      (some (.num 1), [("a", PyVal.num 1)], [("a", (0 : ℚ))], false)) :=
  ⟨⟨rfl, rfl, by norm_num⟩,
   C8_fresh_cache_no_fetch [] [("a", PyVal.num 1)] [("a", (0 : ℚ))] 1 25 "a"
     .exc 2 (.num 1) 0 rfl rfl (by norm_num)⟩

/-!
Raw socket transaction of plum_ecomax/plum_device.py.
-/

/-- The slice buffer[idx+8 : -3] returned by _socket_transaction, where idx
is the position of the first 0x68 byte. -/
def payloadSlice (buffer : List Nat) : List Nat :=
  (buffer.take (buffer.length - 3)).drop
    (buffer.findIdx (fun b => b = START_BYTE) + 8)

/-- The receive loop of PlumDevice._socket_transaction from
plum_ecomax/plum_device.py: chunks accumulate in a buffer; as soon as the
buffer contains 0x68 somewhere and its last byte is 0x16, the slice from 8
past the first 0x68 up to 3 before the end is returned.  No CRC, length or
stop-byte-position verification happens.  An empty chunk models the closed
connection, an exhausted chunk list the 2-second deadline; both yield None. -/
def socket_transaction : List Nat → List (List Nat) → Option (List Nat)
  | _, [] => none
  | buf, c :: cs =>
      if c = [] then none
      else
        if START_BYTE ∈ buf ++ c ∧ (buf ++ c).getLast? = some STOP_BYTE then
          some (payloadSlice (buf ++ c))
        else socket_transaction (buf ++ c) cs

/-- A concrete response frame for C9 whose CRC-covered region was corrupted
after the CRC was computed: byte 8 (the first payload byte) of a valid
encoding of the frame (1, 100, 0x43, [11, 0, 1, 200, 0]) is overwritten. -/
def corruptedC9 : List Nat :=
  (((BoilerFrame.mk 1 100 67 [11, 0, 1, 200, 0]).to_bytes).getD []).set 8 99

/-- C9.  The plum_ecomax socket transaction accepts any received buffer that
contains 0x68 somewhere and ends with 0x16, returning the bytes from 8 past
the first 0x68 up to 3 before the end; in particular the concrete buffer
corruptedC9, whose transmitted CRC does not match the CRC recomputed over
its length-to-payload span, is accepted and its corrupted payload returned. -/
theorem C9_transaction_no_crc_check (buf : List Nat)
    (h1 : START_BYTE ∈ buf) (h2 : buf.getLast? = some STOP_BYTE) :
    socket_transaction [] [buf] = some (payloadSlice buf)
    ∧ compute_crc16 ((corruptedC9.drop 1).take 12) ≠
        corruptedC9.getD 13 0 * 256 + corruptedC9.getD 14 0
    ∧ socket_transaction [] [corruptedC9] = some [99, 0, 1, 200, 0] := by
  refine ⟨?_, by decide, by decide⟩
  unfold socket_transaction
  rw [if_neg ?hne]
  case hne =>
    intro hnil
    rw [hnil] at h1
    exact absurd h1 (List.not_mem_nil START_BYTE)
  rw [List.nil_append, if_pos ⟨h1, h2⟩]

theorem C9_transaction_no_crc_check_witness :
    (START_BYTE ∈ [104, 1, 2, 3, 4, 5, 6, 7, 9, 9, 22] ∧
      ([104, 1, 2, 3, 4, 5, 6, 7, 9, 9, 22] : List Nat).getLast? =
        some STOP_BYTE) ∧
    (socket_transaction [] [[104, 1, 2, 3, 4, 5, 6, 7, 9, 9, 22]] =
        some (payloadSlice [104, 1, 2, 3, 4, 5, 6, 7, 9, 9, 22])
    ∧ compute_crc16 ((corruptedC9.drop 1).take 12) ≠
        corruptedC9.getD 13 0 * 256 + corruptedC9.getD 14 0
    ∧ socket_transaction [] [corruptedC9] = some [99, 0, 1, 200, 0]) :=
  ⟨⟨by decide, by decide⟩,
   C9_transaction_no_crc_check [104, 1, 2, 3, 4, 5, 6, 7, 9, 9, 22]
     (by decide) (by decide)⟩

/-!
Stream reassembler of AsyncPlumTransport.read_frame
(plum_ecomax/plum_transport.py).  The candidate inspection at an aligned
start byte is split into named pieces shared by the loop and the theorems:
rest stands for the buffer content after the leading 0x68.
-/

/-- The length field read from the two bytes after the start byte
(struct.unpack little-endian on buffer[1:3]). -/
def candL (rest : List Nat) : Nat := rest.getD 0 0 + 256 * rest.getD 1 0

/-- The candidate frame slice buffer[:total_len] with total_len = l_val + 6. -/
def candTake (rest : List Nat) : List Nat :=
  (START_BYTE :: rest).take (candL rest + 6)

/-- The CRC-covered span frame_bytes[1 : 3 + l_val] of the candidate. -/
def candBody (rest : List Nat) : List Nat :=
  ((candTake rest).drop 1).take (2 + candL rest)

/-- The transmitted big-endian CRC frame_bytes[body_end : body_end + 2]. -/
def candReceived (rest : List Nat) : Nat :=
  (candTake rest).getD (3 + candL rest) 0 * 256 +
    (candTake rest).getD (4 + candL rest) 0

/-- The acceptance test of the candidate: recomputed CRC equals the
transmitted CRC and the final byte of the candidate is the stop byte. -/
def candCheck (rest : List Nat) : Bool :=
  (compute_crc16 (candBody rest) == candReceived rest) &&
    ((candTake rest).getLast? == some STOP_BYTE)

/-- Result of one run of the inner parsing loop of read_frame: a decoded
frame together with the unconsumed buffer, a request for more input with
the retained buffer, or the exception path (BoilerFrame.from_bytes raising
inside the try block, which makes read_frame return None). -/
inductive ParseOut where
  | found (fr : BoilerFrame) (rest : List Nat)
  | need (buf : List Nat)
  | err
deriving DecidableEq

/-- The inner while-loop of read_frame over the current buffer.  The source
deletes the garbage prefix before the first 0x68 in one step (and clears a
buffer with no 0x68); recursing byte-wise over non-start bytes reaches the
same aligned buffer, and a cleared buffer is reached as the empty case.
At an aligned start byte: wait when fewer than 3 bytes are buffered, read
the length field, wait when the candidate is not fully buffered, then
either yield the decoded frame after the CRC and stop-byte test or drop
only the leading start byte and rescan. -/
def parseLoop : List Nat → ParseOut
  | [] => .need []
  | x :: rest =>
      if x = START_BYTE then
        if rest.length + 1 < 3 then .need (x :: rest)
        else if rest.length + 1 < candL rest + 6 then .need (x :: rest)
        else if candCheck rest then
          match BoilerFrame.from_bytes ((candBody rest).drop 2) with
          | some fr => .found fr ((x :: rest).drop (candL rest + 6))
          | none => .err
        else parseLoop rest
      else parseLoop rest

/-- The chunk-consuming outer loop of read_frame: each delivered chunk is
appended to the retained buffer and the inner loop runs; the first frame
found is returned.  An empty chunk is a closed connection and an exhausted
chunk list is the timeout, both returning None, as does the exception
path. -/
def feedChunks : List Nat → List (List Nat) → Option BoilerFrame
  | _, [] => none
  | buf, c :: cs =>
      if c = [] then none
      else
        match parseLoop (buf ++ c) with
        | .found fr _ => some fr
        | .need buf2 => feedChunks buf2 cs
        | .err => none

theorem parseLoop_skip_noise (u v : List Nat) (hu : START_BYTE ∉ u) :
    parseLoop (u ++ v) = parseLoop v := by
  induction u with
  | nil => rfl
  | cons x u' ih =>
      have hx : ¬(x = START_BYTE) := fun h => hu (h ▸ List.mem_cons_self x u')
      have hu' : START_BYTE ∉ u' := fun h => hu (List.mem_cons_of_mem x h)
      rw [List.cons_append]
      show parseLoop (x :: (u' ++ v)) = parseLoop v
      rw [← ih hu']
      simp only [parseLoop, if_neg hx]

theorem enc_struct (dest src func : Nat) (payload : List Nat)
    (h1 : dest < 65536) (h2 : src < 65536) (h3 : func < 256)
    (h4 : payload.length < 65536 - 6) (enc : List Nat)
    (henc : (BoilerFrame.mk dest src func payload).to_bytes = some enc) :
    enc = START_BYTE :: frameBody (BoilerFrame.mk dest src func payload) ++
      be16 (compute_crc16 (frameBody (BoilerFrame.mk dest src func payload)))
      ++ [STOP_BYTE] := by
  unfold BoilerFrame.to_bytes at henc
  rw [if_pos ⟨by simp; omega, h1, h2, h3⟩] at henc
  exact (Option.some.inj henc).symm

theorem frameBody_struct (dest src func : Nat) (payload : List Nat) :
    frameBody (BoilerFrame.mk dest src func payload) =
      (2 + 2 + 1 + payload.length) % 256 ::
      (2 + 2 + 1 + payload.length) / 256 % 256 ::
      (le16 dest ++ le16 src ++ [func] ++ payload) := by
  simp [frameBody, le16]

theorem frameBody_length (dest src func : Nat) (payload : List Nat) :
    (frameBody (BoilerFrame.mk dest src func payload)).length =
      7 + payload.length := by
  simp [frameBody, le16]
  omega

theorem enc_length (dest src func : Nat) (payload : List Nat)
    (h1 : dest < 65536) (h2 : src < 65536) (h3 : func < 256)
    (h4 : payload.length < 65536 - 6) (enc : List Nat)
    (henc : (BoilerFrame.mk dest src func payload).to_bytes = some enc) :
    enc.length = 11 + payload.length := by
  rw [enc_struct dest src func payload h1 h2 h3 h4 enc henc]
  simp [be16, frameBody_length dest src func payload]
  omega

theorem parseLoop_take_incomplete (dest src func : Nat) (payload : List Nat)
    (h1 : dest < 65536) (h2 : src < 65536) (h3 : func < 256)
    (h4 : payload.length < 65536 - 6) (enc : List Nat)
    (henc : (BoilerFrame.mk dest src func payload).to_bytes = some enc)
    (m : Nat) (hm1 : 1 ≤ m) (hm2 : m < enc.length) :
    parseLoop (enc.take m) = .need (enc.take m) := by
  have hE := enc_struct dest src func payload h1 h2 h3 h4 enc henc
  have hL := enc_length dest src func payload h1 h2 h3 h4 enc henc
  have hEexp : enc = START_BYTE ::
      (2 + 2 + 1 + payload.length) % 256 ::
      (2 + 2 + 1 + payload.length) / 256 % 256 ::
      ((le16 dest ++ le16 src ++ [func] ++ payload) ++
        be16 (compute_crc16 (frameBody (BoilerFrame.mk dest src func payload)))
        ++ [STOP_BYTE]) := by
    rw [hE, frameBody_struct]
    simp [List.cons_append, List.append_assoc]
  have htail : ((le16 dest ++ le16 src ++ [func] ++ payload) ++
      be16 (compute_crc16 (frameBody (BoilerFrame.mk dest src func payload)))
      ++ [STOP_BYTE]).length = 8 + payload.length := by
    simp [le16, be16]
    omega
  rcases m with _ | m1
  · omega
  rcases m1 with _ | m2
  · rw [hEexp]
    rfl
  rcases m2 with _ | k
  · rw [hEexp]
    rfl
  · rw [hEexp]
    show parseLoop (START_BYTE ::
      ((2 + 2 + 1 + payload.length) % 256 ::
       (2 + 2 + 1 + payload.length) / 256 % 256 ::
       (((le16 dest ++ le16 src ++ [func] ++ payload) ++
        be16 (compute_crc16 (frameBody (BoilerFrame.mk dest src func payload)))
        ++ [STOP_BYTE]).take k))) = ParseOut.need (START_BYTE ::
      ((2 + 2 + 1 + payload.length) % 256 ::
       (2 + 2 + 1 + payload.length) / 256 % 256 ::
       (((le16 dest ++ le16 src ++ [func] ++ payload) ++
        be16 (compute_crc16 (frameBody (BoilerFrame.mk dest src func payload)))
        ++ [STOP_BYTE]).take k)))
    have hklen : (((le16 dest ++ le16 src ++ [func] ++ payload) ++
        be16 (compute_crc16 (frameBody (BoilerFrame.mk dest src func payload)))
        ++ [STOP_BYTE]).take k).length = k := by
      rw [List.length_take, htail]
      have : k + 3 < 11 + payload.length := by
        rw [← hL]
        exact hm2
      omega
    have hc3 : ¬((2 + 2 + 1 + payload.length) % 256 ::
        (2 + 2 + 1 + payload.length) / 256 % 256 ::
        (((le16 dest ++ le16 src ++ [func] ++ payload) ++
         be16 (compute_crc16 (frameBody (BoilerFrame.mk dest src func
           payload))) ++ [STOP_BYTE]).take k)).length + 1 < 3 := by
      simp
    have hcl : candL ((2 + 2 + 1 + payload.length) % 256 ::
        (2 + 2 + 1 + payload.length) / 256 % 256 ::
        (((le16 dest ++ le16 src ++ [func] ++ payload) ++
         be16 (compute_crc16 (frameBody (BoilerFrame.mk dest src func
           payload))) ++ [STOP_BYTE]).take k)) = 2 + 2 + 1 + payload.length
        := by
      simp [candL, List.getD]
      omega
    have hc6 : ((2 + 2 + 1 + payload.length) % 256 ::
        (2 + 2 + 1 + payload.length) / 256 % 256 ::
        (((le16 dest ++ le16 src ++ [func] ++ payload) ++
         be16 (compute_crc16 (frameBody (BoilerFrame.mk dest src func
           payload))) ++ [STOP_BYTE]).take k)).length + 1 <
        candL ((2 + 2 + 1 + payload.length) % 256 ::
        (2 + 2 + 1 + payload.length) / 256 % 256 ::
        (((le16 dest ++ le16 src ++ [func] ++ payload) ++
         be16 (compute_crc16 (frameBody (BoilerFrame.mk dest src func
           payload))) ++ [STOP_BYTE]).take k)) + 6 := by
      rw [hcl]
      simp only [List.length_cons, hklen]
      have : k + 3 < 11 + payload.length := by
        rw [← hL]
        exact hm2
      omega
    simp only [parseLoop, if_pos rfl, if_neg hc3, if_pos hc6, if_true]

theorem getD_append_offset (l1 l2 : List Nat) (i d : Nat) :
    (l1 ++ l2).getD (l1.length + i) d = l2.getD i d := by
  simp [List.getD, List.getElem?_append_right (Nat.le_add_right l1.length i)]

theorem from_bytes_fields (dest src func : Nat) (payload : List Nat)
    (h1 : dest < 65536) (h2 : src < 65536) :
    BoilerFrame.from_bytes (le16 dest ++ le16 src ++ [func] ++ payload) =
      some (BoilerFrame.mk dest src func payload) := by
  have hXc : le16 dest ++ le16 src ++ [func] ++ payload =
      dest % 256 :: dest / 256 % 256 :: src % 256 :: src / 256 % 256 ::
        func :: payload := by
    simp [le16]
  rw [hXc]
  simp only [BoilerFrame.from_bytes, Option.some.injEq, BoilerFrame.mk.injEq]
  exact ⟨by omega, by omega, trivial, trivial⟩

theorem parseLoop_aligned_complete (fr : BoilerFrame) (a0 a1 C : Nat)
    (X : List Nat) (hC : C < 65536) (hval : a0 + 256 * a1 = X.length)
    (hcrc : compute_crc16 (a0 :: a1 :: X) = C)
    (hfrom : BoilerFrame.from_bytes X = some fr) :
    parseLoop (START_BYTE :: a0 :: a1 ::
      (X ++ [C / 256 % 256, C % 256] ++ [STOP_BYTE])) = .found fr [] := by
  set T := X ++ [C / 256 % 256, C % 256] ++ [STOP_BYTE] with hTdef
  set rest := a0 :: a1 :: T with hrest
  have hTlen : T.length = X.length + 3 := by
    simp [hTdef]
  have hrestlen : rest.length = X.length + 5 := by
    simp [hrest, hTlen]
    try omega
  have hcl : candL rest = X.length := by
    simp [candL, hrest, List.getD]
    omega
  have hc3 : ¬(rest.length + 1 < 3) := by
    rw [hrestlen]
    omega
  have hc6 : ¬(rest.length + 1 < candL rest + 6) := by
    rw [hrestlen, hcl]
    omega
  have hTake : candTake rest = START_BYTE :: rest := by
    unfold candTake
    rw [hcl]
    rw [show X.length + 6 = (START_BYTE :: rest).length from by
      simp [hrestlen]]
    exact List.take_length _
  have hT5 : T.take X.length = X := by
    rw [hTdef, List.append_assoc]
    exact List.take_left X _
  have hBody : candBody rest = a0 :: a1 :: X := by
    unfold candBody
    rw [hTake, hcl]
    show (a0 :: a1 :: T).take (2 + X.length) = a0 :: a1 :: X
    rw [show 2 + X.length = X.length + 1 + 1 from by omega]
    simp only [List.take_succ_cons]
    rw [hT5]
  have e0 : T.getD X.length 0 = C / 256 % 256 := by
    have h := getD_append_offset X ([C / 256 % 256, C % 256] ++ [STOP_BYTE])
      0 0
    simpa [hTdef, List.append_assoc] using h
  have e1 : T.getD (X.length + 1) 0 = C % 256 := by
    have h := getD_append_offset X ([C / 256 % 256, C % 256] ++ [STOP_BYTE])
      1 0
    simpa [hTdef, List.append_assoc] using h
  have hRecv : candReceived rest = C := by
    unfold candReceived
    rw [hTake, hcl]
    have hsplit : START_BYTE :: rest = [START_BYTE, a0, a1] ++ T := by
      simp [hrest]
    rw [hsplit]
    rw [show 3 + X.length = [START_BYTE, a0, a1].length + X.length from by
      simp]
    rw [show 4 + X.length = [START_BYTE, a0, a1].length + (X.length + 1)
      from by simp; omega]
    rw [getD_append_offset, getD_append_offset, e0, e1]
    omega
  have hlast : (candTake rest).getLast? = some STOP_BYTE := by
    rw [hTake]
    have hsp : START_BYTE :: rest =
        (START_BYTE :: a0 :: a1 :: (X ++ [C / 256 % 256, C % 256])) ++
          [STOP_BYTE] := by
      simp [hrest, hTdef, List.append_assoc]
    rw [hsp, List.getLast?_concat]
  have hCheck : candCheck rest = true := by
    unfold candCheck
    rw [hBody, hRecv, hcrc, hlast]
    simp
  have hFrom : BoilerFrame.from_bytes ((candBody rest).drop 2) = some fr := by
    rw [hBody]
    exact hfrom
  have hDrop : (START_BYTE :: rest).drop (candL rest + 6) = [] := by
    rw [hcl]
    rw [show X.length + 6 = (START_BYTE :: rest).length from by
      simp [hrestlen]]
    exact List.drop_length _
  show parseLoop (START_BYTE :: rest) = .found fr []
  simp only [parseLoop, if_pos rfl, if_neg hc3, if_neg hc6, hCheck,
    eq_self_iff_true, if_true, hFrom, hDrop]

theorem parseLoop_enc (dest src func : Nat) (payload : List Nat)
    (h1 : dest < 65536) (h2 : src < 65536) (h3 : func < 256)
    (h4 : payload.length < 65536 - 6) (enc : List Nat)
    (henc : (BoilerFrame.mk dest src func payload).to_bytes = some enc) :
    parseLoop enc = .found (BoilerFrame.mk dest src func payload) [] := by
  rw [enc_struct dest src func payload h1 h2 h3 h4 enc henc]
  have hval : (2 + 2 + 1 + payload.length) % 256 +
      256 * ((2 + 2 + 1 + payload.length) / 256 % 256) =
      (le16 dest ++ le16 src ++ [func] ++ payload).length := by
    simp [le16]
    omega
  exact parseLoop_aligned_complete (BoilerFrame.mk dest src func payload)
    ((2 + 2 + 1 + payload.length) % 256)
    ((2 + 2 + 1 + payload.length) / 256 % 256)
    (compute_crc16 (frameBody (BoilerFrame.mk dest src func payload)))
    (le16 dest ++ le16 src ++ [func] ++ payload)
    (compute_crc16_lt _) hval rfl
    (from_bytes_fields dest src func payload h1 h2)

theorem feedChunks_completes (dest src func : Nat) (payload : List Nat)
    (h1 : dest < 65536) (h2 : src < 65536) (h3 : func < 256)
    (h4 : payload.length < 65536 - 6) (enc : List Nat)
    (henc : (BoilerFrame.mk dest src func payload).to_bytes = some enc) :
    ∀ (cs : List (List Nat)) (buf : List Nat),
      (∀ c ∈ cs, c ≠ []) →
      ((buf = [] ∧ ∃ w, START_BYTE ∉ w ∧ cs.join = w ++ enc) ∨
       (∃ m, 1 ≤ m ∧ m < enc.length ∧ buf = enc.take m ∧
         cs.join = enc.drop m)) →
      feedChunks buf cs = some (BoilerFrame.mk dest src func payload) := by
  have hL := enc_length dest src func payload h1 h2 h3 h4 enc henc
  intro cs
  induction cs with
  | nil =>
      intro buf hne hinv
      exfalso
      rcases hinv with ⟨hbuf, w, hw, hjoin⟩ | ⟨m, hm1, hm2, hbuf, hjoin⟩
      · have hlen0 : (List.nil (α := List Nat)).join.length =
            (w ++ enc).length := congrArg List.length hjoin
        simp [hL] at hlen0
        omega
      · have hlen0 : (List.nil (α := List Nat)).join.length =
            (enc.drop m).length := congrArg List.length hjoin
        simp [hL] at hlen0
        omega
  | cons c cs' ih =>
      intro buf hne hinv
      have hc : c ≠ [] := hne c (List.mem_cons_self c cs')
      have hne' : ∀ x ∈ cs', x ≠ [] :=
        fun x hx => hne x (List.mem_cons_of_mem c hx)
      simp only [feedChunks, if_neg hc]
      rcases hinv with ⟨hbuf, w, hw, hjoin⟩ | ⟨m, hm1, hm2, hbuf, hjoin⟩
      · subst hbuf
        have hjoin' : c ++ cs'.join = w ++ enc := by simpa using hjoin
        rcases List.append_eq_append_iff.mp hjoin' with
          ⟨a', hw_eq, hjoin2⟩ | ⟨c', hc_eq, henc_eq⟩
        · have hcnoise : START_BYTE ∉ c :=
            fun hmem => hw (hw_eq ▸ List.mem_append_left a' hmem)
          have hannoise : START_BYTE ∉ a' :=
            fun hmem => hw (hw_eq ▸ List.mem_append_right c hmem)
          have hparse : parseLoop ([] ++ c) = .need [] := by
            rw [List.nil_append]
            have hskip := parseLoop_skip_noise c [] hcnoise
            rw [List.append_nil] at hskip
            rw [hskip]
            rfl
          rw [hparse]
          exact ih [] hne' (Or.inl ⟨rfl, a', hannoise, hjoin2⟩)
        · by_cases hc'nil : c' = []
          · subst hc'nil
            have hcw : c = w := by simpa using hc_eq
            have hjoin2 : cs'.join = enc := by simpa using henc_eq.symm
            have hcnoise : START_BYTE ∉ c := hcw ▸ hw
            have hparse : parseLoop ([] ++ c) = .need [] := by
              rw [List.nil_append]
              have hskip := parseLoop_skip_noise c [] hcnoise
              rw [List.append_nil] at hskip
              rw [hskip]
              rfl
            rw [hparse]
            exact ih [] hne'
              (Or.inl ⟨rfl, [], by simp, by simp [hjoin2]⟩)
          · have hctake : c' = enc.take c'.length := by
              rw [henc_eq]
              exact (List.take_left c' _).symm
            have hcdrop : cs'.join = enc.drop c'.length := by
              rw [henc_eq]
              exact (List.drop_left c' _).symm
            have hlen_le : c'.length ≤ enc.length := by
              rw [henc_eq]
              simp
            have hge1 : 1 ≤ c'.length := by
              rcases c' with _ | ⟨x, t⟩
              · exact absurd rfl hc'nil
              · simp
            by_cases hfull : c'.length = enc.length
            · have hc'enc : c' = enc := by
                rw [hctake, hfull, List.take_length]
              have hparse : parseLoop ([] ++ c) =
                  .found (BoilerFrame.mk dest src func payload) [] := by
                rw [List.nil_append, hc_eq, hc'enc,
                  parseLoop_skip_noise w enc hw]
                exact parseLoop_enc dest src func payload h1 h2 h3 h4 enc henc
              rw [hparse]
            · have hlt : c'.length < enc.length :=
                lt_of_le_of_ne hlen_le hfull
              have hparse : parseLoop ([] ++ c) =
                  .need (enc.take c'.length) := by
                rw [List.nil_append, hc_eq, parseLoop_skip_noise w c' hw]
                conv_lhs => rw [hctake]
                exact parseLoop_take_incomplete dest src func payload h1 h2 h3
                  h4 enc henc c'.length hge1 hlt
              rw [hparse]
              exact ih (enc.take c'.length) hne'
                (Or.inr ⟨c'.length, hge1, hlt, rfl, hcdrop⟩)
      · subst hbuf
        have hjoin' : c ++ cs'.join = enc.drop m := by simpa using hjoin
        have hctake : c = (enc.drop m).take c.length := by
          rw [← hjoin']
          exact (List.take_left c _).symm
        have hcsdrop : cs'.join = (enc.drop m).drop c.length := by
          rw [← hjoin']
          exact (List.drop_left c _).symm
        have hdropdrop : (enc.drop m).drop c.length = enc.drop (m + c.length)
          := by rw [List.drop_drop]
        have hbc : enc.take m ++ c = enc.take (m + c.length) := by
          rw [List.take_add, ← hctake]
        have hclen_le : c.length + cs'.join.length = enc.length - m := by
          have hlen := congrArg List.length hjoin'
          rw [List.length_append, List.length_drop] at hlen
          exact hlen
        have hge : 1 ≤ m + c.length := by omega
        by_cases hfull : m + c.length = enc.length
        · have htk : enc.take (m + c.length) = enc := by
            rw [hfull]
            exact List.take_length _
          rw [hbc, htk,
            parseLoop_enc dest src func payload h1 h2 h3 h4 enc henc]
        · have hlt : m + c.length < enc.length := by omega
          rw [hbc, parseLoop_take_incomplete dest src func payload h1 h2 h3 h4
            enc henc (m + c.length) hge hlt]
          exact ih (enc.take (m + c.length)) hne'
            (Or.inr ⟨m + c.length, hge, hlt, rfl, by rw [hcsdrop, hdropdrop]⟩)

/-- C2 amended.  Feeding noise bytes that contain no start byte 0x68,
followed by a valid encoded frame, to the read_frame parsing loop in
arbitrary nonempty chunks always yields exactly the one valid frame; and
whenever a fully buffered aligned candidate fails the CRC or stop-byte
test, the parser drops only the leading start byte before re-scanning.
(With noise that contains 0x68 the frame can be lost: see the
counterexample, where a noise byte 0x68 directly before the frame makes
the parser read a bogus length field and wait for input that never
arrives.) -/
theorem C2_reassembler_noise_tolerance (dest src func : Nat)
    (payload noise : List Nat) (chunks : List (List Nat)) (enc : List Nat)
    (h1 : dest < 65536) (h2 : src < 65536) (h3 : func < 256)
    (h4 : payload.length < 65536 - 6)
    (henc : (BoilerFrame.mk dest src func payload).to_bytes = some enc)
    (hnoise : START_BYTE ∉ noise)
    (hchunks : ∀ c ∈ chunks, c ≠ [])
    (hjoin : chunks.join = noise ++ enc) :
    feedChunks [] chunks = some (BoilerFrame.mk dest src func payload)
    ∧ ∀ rest : List Nat, ¬(rest.length + 1 < 3) →
        ¬(rest.length + 1 < candL rest + 6) → candCheck rest = false →
        parseLoop (START_BYTE :: rest) = parseLoop rest := by
  constructor
  · exact feedChunks_completes dest src func payload h1 h2 h3 h4 enc henc
      chunks [] hchunks (Or.inl ⟨rfl, noise, hnoise, hjoin⟩)
  · intro rest hA hB hC
    simp only [parseLoop, if_pos rfl, if_neg hA, if_neg hB, hC,
      Bool.false_eq_true, if_false, if_true, ite_self]

/-- The valid encoding of the frame (1, 100, 0x43, empty payload) used by
the C2 counterexample. -/
def encC2 : List Nat := ((BoilerFrame.mk 1 100 67 []).to_bytes).getD []

/-- C2 counterexample: encC2 is a valid encoded frame, yet delivering the
noise byte 0x68 followed by encC2 (as one chunk) makes read_frame yield no
frame at all: the parser aligns on the noise 0x68, reads a bogus length
field from the frame bytes behind it and waits for a candidate that never
completes.  The claim promises exactly the one valid frame for every noise
sequence. -/
theorem C2_counterexample :
    (BoilerFrame.mk 1 100 67 []).to_bytes = some encC2
    ∧ feedChunks [] [START_BYTE :: encC2] = none
    ∧ feedChunks [] [START_BYTE :: encC2] ≠
        some (BoilerFrame.mk 1 100 67 []) :=
  ⟨by decide, by decide, by decide⟩

/-- The valid encoding of the frame (1, 100, 0x43, [5]) used by the C2
witness. -/
def encW : List Nat := ((BoilerFrame.mk 1 100 67 [5]).to_bytes).getD []

/-- One-byte-at-a-time chunking of two noise bytes followed by encW. -/
def chunksW : List (List Nat) := ([1, 2] ++ encW).map (fun b => [b])

theorem C2_reassembler_noise_tolerance_witness :
    (1 < 65536 ∧ 100 < 65536 ∧ 67 < 256 ∧
     ([5] : List Nat).length < 65536 - 6 ∧
     (BoilerFrame.mk 1 100 67 [5]).to_bytes = some encW ∧
     START_BYTE ∉ ([1, 2] : List Nat) ∧
     (∀ c ∈ chunksW, c ≠ []) ∧
     chunksW.join = [1, 2] ++ encW) ∧
    (feedChunks [] chunksW = some (BoilerFrame.mk 1 100 67 [5])
     ∧ ∀ rest : List Nat, ¬(rest.length + 1 < 3) →
        ¬(rest.length + 1 < candL rest + 6) → candCheck rest = false →
        parseLoop (START_BYTE :: rest) = parseLoop rest) :=
  ⟨⟨by decide, by decide, by decide, by decide, by decide, by decide,
    by decide, by decide⟩,
   C2_reassembler_noise_tolerance 1 100 67 [5] [1, 2] chunksW encW
     (by decide) (by decide) (by decide) (by decide) (by decide) (by decide)
     (by decide) (by decide)⟩
